import Mathlib

/-!
Verification development for the ScreenScraper client library
(`screenscraper.py` of miyoo-mini-scraper-macos).

Shallow embedding conventions:
* JSON payloads arriving from the remote service are decoded record types in
  which an `Option` field marks a possibly-missing key (Python `dict.get`
  with a default).  Quantifying over these records quantifies over every
  response tree shaped as the code expects.
* External collaborators (HTTP transport, the stdlib JSON parser, the
  hashlib digest algorithms, the wall clock) are parameters of the embedded
  functions; the code under verification is only their orchestration.
* Python exceptions become the `SSError` sum type, one constructor per
  distinguishable exception class/message family; a function that may raise
  returns `Except SSError _`.
* Observable side effects (file reads, network requests) are returned as an
  explicit `Effect` trace in the order they would be performed.
-/

namespace ScreenScraper

/-- A `(langue, text)` entry of a localized-text list (`noms`, `synopsis`,
`editeur`, `developpeur`, `genres`); either key may be missing. -/
structure TextEntry where
  langue : Option String
  text : Option String
deriving Repr, DecidableEq

/-- An entry of the `dates` list: a region tag and a date text. -/
structure DateEntry where
  region : Option String
  text : Option String
deriving Repr, DecidableEq

/-- A `{'text': ...}` wrapper node (`joueurs`, `note`, `systeme`). -/
structure TextWrapper where
  text : Option String
deriving Repr, DecidableEq

/-- One media item inside a media group of the `medias` list. -/
structure MediaItem where
  type : Option String
  url : Option String
  format : Option String
  region : Option String
  size : Option String
deriving Repr, DecidableEq

/-- One group of the `medias` list; its `media` key holds the items. -/
structure MediaGroup where
  media : Option (List MediaItem)
deriving Repr, DecidableEq

/-- The decoded `jeu` (game) node of the response. -/
structure Jeu where
  id : Option String
  noms : Option (List TextEntry)
  synopsis : Option (List TextEntry)
  editeur : Option (List TextEntry)
  developpeur : Option (List TextEntry)
  joueurs : Option TextWrapper
  note : Option TextWrapper
  dates : Option (List DateEntry)
  genres : Option (List TextEntry)
  systeme : Option TextWrapper
  medias : Option (List MediaGroup)
deriving Repr, DecidableEq

/-- The `jeu` node with every key missing; every field of the parsed record
then takes its default. -/
def emptyJeu : Jeu :=
  ⟨none, none, none, none, none, none, none, none, none, none, none⟩

/-- The `response` wrapper node; its `jeu` key may be missing. -/
structure RespNode where
  jeu : Option Jeu
deriving Repr, DecidableEq

/-- The `header` node; the `erreur` key may be missing. -/
structure Header where
  erreur : Option String
deriving Repr, DecidableEq

/-- The decoded top-level JSON object returned by the service: the `header`
and `response` wrappers, either possibly missing. -/
structure ApiData where
  header : Option Header
  response : Option RespNode
deriving Repr, DecidableEq

/-- `GameMedia` dataclass: one media descriptor of a parsed game. -/
structure GameMedia where
  media_type : String
  url : String
  format : String
  region : String
  size : String
deriving Repr, DecidableEq

/-- `GameInfo` dataclass: the flat game record built by the response mapper. -/
structure GameInfo where
  id : String
  name : String
  description : String
  publisher : String
  developer : String
  players : String
  rating : String
  release_date : String
  genre : String
  system : String
  media : List GameMedia
  raw_data : Jeu
deriving Repr, DecidableEq

/-- The error taxonomy: one constructor per distinguishable Python exception
raised by the library (`ValueError` for bad platforms, the
`ScreenScraperError` hierarchy, the raw `json.JSONDecodeError` escaping the
repair path, `FileNotFoundError` from hashing). -/
inductive SSError where
  | invalidPlatform (platform : String)
  | quotaExceeded (msg : String)
  | apiClosed (msg : String)
  | remoteError (msg : String)
  | transportFailure
  | gameNotFound (msg : String)
  | malformedResponse
  | fileUnreadable
deriving Repr, DecidableEq

/-- The mutable attributes of a `ScreenScraperClient` instance: the
configuration set in `__init__` plus the `request_count` and
`last_request_time` bookkeeping. -/
structure ClientState where
  dev_id : String
  dev_password : String
  software_name : String
  user_id : Option String
  user_password : Option String
  language : String
  max_requests_per_day : Nat
  request_delay : ℚ
  request_count : Nat
  last_request_time : ℚ
deriving Repr, DecidableEq

/-- `ScreenScraperClient.__init__` with every optional argument left at its
default (`software_name="ScreenScraperPython"`, `language="en"`,
`max_requests_per_day=10000`, `request_delay=1.0`, counters zeroed). -/
def init_client (dev_id dev_password : String) : ClientState :=
  { dev_id := dev_id
    dev_password := dev_password
    software_name := "ScreenScraperPython"
    user_id := none
    user_password := none
    language := "en"
    max_requests_per_day := 10000
    request_delay := 1
    request_count := 0
    last_request_time := 0 }

/-- Python `str.lower` restricted to the ASCII range (the only characters the
keyword checks of `_make_request` that the claims touch consist of). -/
def pyLower (s : String) : String := String.mk (s.data.map Char.toLower)

/-- Python `str.upper` restricted to the ASCII range (hex digests only
contain ASCII). -/
def pyUpper (s : String) : String := String.mk (s.data.map Char.toUpper)

/-- Contiguous-sublist test on character lists; `listHasSub n h` holds when
`n` occurs consecutively inside `h`. -/
def listHasSub (needle : List Char) : List Char → Bool
  | [] => needle.isEmpty
  | c :: t => needle.isPrefixOf (c :: t) || listHasSub needle t

/-- Python's `needle in hay` substring test on strings. -/
def pyIn (needle hay : String) : Bool := listHasSub needle.data hay.data

/-- The closed `PLATFORMS` table of `ScreenScraperClient`, in source order. -/
def PLATFORMS : List (String × Nat) :=
  [("nes", 3), ("snes", 4), ("n64", 14), ("gamecube", 13), ("wii", 16),
   ("gameboy", 9), ("gbc", 10), ("gba", 12), ("nds", 15), ("genesis", 1),
   ("megadrive", 1), ("mastersystem", 2), ("saturn", 22), ("dreamcast", 23),
   ("psx", 57), ("ps2", 58), ("psp", 61), ("arcade", 75), ("mame", 75),
   ("atari2600", 26), ("atari7800", 43), ("colecovision", 48),
   ("intellivision", 115)]

/-- Dictionary lookup in the platform table; `none` models
`platform not in self.PLATFORMS`. -/
def platformId (platform : String) : Option Nat :=
  (PLATFORMS.find? (fun kv => kv.1 == platform)).map (fun kv => kv.2)

/-- `_get_localized_text`: first entry whose `langue` equals the configured
language, else the first entry, else the empty string; the chosen entry's
`text` defaults to the empty string. -/
def get_localized_text (language : String) (text_list : List TextEntry) : String :=
  match text_list with
  | [] => ""
  | first :: _ =>
    match text_list.find? (fun item => item.langue == some language) with
    | some item => item.text.getD ""
    | none => first.text.getD ""

/-- `_get_text_from_list`: the first entry's `text`, else the empty string. -/
def get_text_from_list (item_list : List TextEntry) : String :=
  match item_list with
  | [] => ""
  | first :: _ => first.text.getD ""

/-- `_get_release_date`: first entry whose region is `wor` or `us`, else the
first entry, else the empty string. -/
def get_release_date (dates_list : List DateEntry) : String :=
  match dates_list with
  | [] => ""
  | first :: _ =>
    match dates_list.find?
        (fun d => d.region == some "wor" || d.region == some "us") with
    | some item => item.text.getD ""
    | none => first.text.getD ""

/-- Body of the media loop of `_parse_game_data`: an item is kept exactly
when its url (defaulted to `""`) is truthy, i.e. non-empty. -/
def parseMediaItem (media_item : MediaItem) : Option GameMedia :=
  let media_url := media_item.url.getD ""
  if media_url ≠ "" then
    some { media_type := media_item.type.getD ""
           url := media_url
           format := media_item.format.getD ""
           region := media_item.region.getD ""
           size := media_item.size.getD "" }
  else none

/-- The nested media loop of `_parse_game_data`: for each group, for each
item of its `media` list, append the surviving items in encounter order. -/
def parseMedias (medias : List MediaGroup) : List GameMedia :=
  match medias with
  | [] => []
  | media_group :: rest =>
    (media_group.media.getD []).filterMap parseMediaItem ++ parseMedias rest

/-- `_parse_game_data`: `GameNotFoundError` when the `response` wrapper or
the `jeu` node is missing, otherwise the flat record with per-field
defaults. -/
def parse_game_data (language : String) (data : ApiData) :
    Except SSError GameInfo :=
  match data.response with
  | none => .error (.gameNotFound "Game not found in response")
  | some response =>
    match response.jeu with
    | none => .error (.gameNotFound "No game data in response")
    | some jeu =>
      .ok { id := jeu.id.getD ""
            name := get_localized_text language (jeu.noms.getD [])
            description := get_localized_text language (jeu.synopsis.getD [])
            publisher := get_text_from_list (jeu.editeur.getD [])
            developer := get_text_from_list (jeu.developpeur.getD [])
            players := (jeu.joueurs.getD ⟨none⟩).text.getD ""
            rating := (jeu.note.getD ⟨none⟩).text.getD ""
            release_date := get_release_date (jeu.dates.getD [])
            genre := get_text_from_list (jeu.genres.getD [])
            system := (jeu.systeme.getD ⟨none⟩).text.getD ""
            media := parseMedias (jeu.medias.getD [])
            raw_data := jeu }

/-- `GameInfo.get_media_by_type`: all media items of one type. -/
def GameInfo.get_media_by_type (gi : GameInfo) (media_type : String) :
    List GameMedia :=
  gi.media.filter (fun m => m.media_type == media_type)

/-- The preference loop of `get_best_media`: for each region in order, scan
the candidates in order for a case-insensitive region match. -/
def regionScan (preferred_regions : List String) (candidates : List GameMedia) :
    Option GameMedia :=
  match preferred_regions with
  | [] => none
  | region :: rest =>
    match candidates.find? (fun m => pyLower m.region == pyLower region) with
    | some m => some m
    | none => regionScan rest candidates

/-- `GameInfo.get_best_media`: filter to the requested type; empty → `none`;
otherwise the first preference-region match, else the first candidate.
`none` for `preferred_regions` models the Python default argument. -/
def GameInfo.get_best_media (gi : GameInfo) (media_type : String)
    (preferred_regions : Option (List String)) : Option GameMedia :=
  let prefs := preferred_regions.getD ["us", "wor", "eu", "jp"]
  let candidates := gi.get_media_by_type media_type
  match candidates with
  | [] => none
  | first :: _ =>
    match regionScan prefs candidates with
    | some m => some m
    | none => some first

/-- The sleep duration computed by `_rate_limit`: the remainder of the
configured gap when insufficient time has elapsed, otherwise zero. -/
def rate_limit_sleep (request_delay last_request_time now : ℚ) : ℚ :=
  if now - last_request_time < request_delay then
    request_delay - (now - last_request_time)
  else 0

/-- State update of `_rate_limit`: `last_request_time` becomes the second
`time.time()` reading `wake`, taken after the (possible) sleep. -/
def rate_limit (st : ClientState) (wake : ℚ) : ClientState :=
  { st with last_request_time := wake }

/-- Outcome of the HTTP transport call inside `_make_request`: either a
`requests.RequestException` or a response body text. -/
inductive HttpResult where
  | transportError
  | body (text : String)
deriving Repr, DecidableEq

/-- The targeted textual repair applied to a body that failed to parse:
`text.replace('],\n\t\t}', ']\n\t\t}')`. -/
def fixJson (text : String) : String :=
  text.replace "],\n\t\t\x7d" "]\n\t\t\x7d"

/-- The post-parse half of `_make_request`: increment `request_count`, then
inspect `header.erreur` and map its keywords to the typed failures. -/
def checkApiErrors (data : ApiData) (st : ClientState)
    (attempts : List String) :
    Except SSError ApiData × ClientState × List String :=
  let st1 := { st with request_count := st.request_count + 1 }
  match (data.header.getD ⟨none⟩).erreur with
  | some error_msg =>
    if pyIn "quota" (pyLower error_msg) then
      (.error (.quotaExceeded error_msg), st1, attempts)
    else if pyIn "fermÃ©" (pyLower error_msg)
        || pyIn "closed" (pyLower error_msg) then
      (.error (.apiClosed error_msg), st1, attempts)
    else
      (.error (.remoteError error_msg), st1, attempts)
  | none => (.ok data, st1, attempts)

/-- `_make_request` after the rate-limit sleep.  `parse` is the stdlib JSON
parser (an external collaborator), `wake` the clock reading `_rate_limit`
stores, `hr` the transport outcome.  The third component records the texts
handed to the JSON parser, in order, so the number of parse attempts is an
observable of the model. -/
def make_request (parse : String → Option ApiData) (st : ClientState)
    (wake : ℚ) (hr : HttpResult) :
    Except SSError ApiData × ClientState × List String :=
  let st0 := rate_limit st wake
  match hr with
  | .transportError => (.error .transportFailure, st0, [])
  | .body text =>
    match parse text with
    | some data => checkApiErrors data st0 [text]
    | none =>
      match parse (fixJson text) with
      | some data => checkApiErrors data st0 [text, fixJson text]
      | none => (.error .malformedResponse, st0, [text, fixJson text])

/-- Observable side effects of a search call, in performance order. -/
inductive Effect where
  | fileHashing
  | netRequest
deriving Repr, DecidableEq

/-- Shared tail of the three search operations: issue the request, map the
parsed data, and downgrade only `GameNotFoundError` to `none`. -/
def searchRequest (st : ClientState) (reqResult : Except SSError ApiData) :
    Except SSError (Option GameInfo) :=
  match reqResult with
  | .error e => .error e
  | .ok data =>
    match parse_game_data st.language data with
    | .ok gi => .ok (some gi)
    | .error (.gameNotFound _) => .ok none
    | .error e => .error e

/-- `search_by_file`: validate the platform (before any effect), hash the
file (`hashResult` is `calculate_file_hashes`' outcome; any exception there
is caught, logged and turned into `None`), then request and parse.
`reqResult` stands for what `_make_request` returns for the built params. -/
def search_by_file (st : ClientState) (platform : String)
    (hashResult : Except Unit (String × String × String))
    (reqResult : Except SSError ApiData) :
    Except SSError (Option GameInfo) × List Effect :=
  if (platformId platform).isNone then
    (.error (.invalidPlatform platform), [])
  else
    match hashResult with
    | .error _ => (.ok none, [.fileHashing])
    | .ok _ => (searchRequest st reqResult, [.fileHashing, .netRequest])

/-- `search_by_name`: validate the platform (before any effect), then
request and parse. -/
def search_by_name (st : ClientState) (game_name : String) (platform : String)
    (reqResult : Except SSError ApiData) :
    Except SSError (Option GameInfo) × List Effect :=
  if (platformId platform).isNone then
    (.error (.invalidPlatform platform), [])
  else
    (searchRequest st reqResult, [.netRequest])

/-- `search_by_id`: no validation, request and parse directly. -/
def search_by_id (st : ClientState) (reqResult : Except SSError ApiData) :
    Except SSError (Option GameInfo) × List Effect :=
  (searchRequest st reqResult, [.netRequest])

/-- Lowercase hex digit table (indices 0–15). -/
def hexTableLower : Nat → Char
  | 0 => '0' | 1 => '1' | 2 => '2' | 3 => '3' | 4 => '4' | 5 => '5'
  | 6 => '6' | 7 => '7' | 8 => '8' | 9 => '9' | 10 => 'a' | 11 => 'b'
  | 12 => 'c' | 13 => 'd' | 14 => 'e' | _ => 'f'

/-- Uppercase hex digit table (indices 0–15). -/
def hexTableUpper : Nat → Char
  | 0 => '0' | 1 => '1' | 2 => '2' | 3 => '3' | 4 => '4' | 5 => '5'
  | 6 => '6' | 7 => '7' | 8 => '8' | 9 => '9' | 10 => 'A' | 11 => 'B'
  | 12 => 'C' | 13 => 'D' | 14 => 'E' | _ => 'F'

/-- Lowercase hex digit of a value reduced mod 16. -/
def hexCharLower (n : Nat) : Char := hexTableLower (n % 16)

/-- Uppercase hex digit of a value reduced mod 16. -/
def hexCharUpper (n : Nat) : Char := hexTableUpper (n % 16)

/-- `hashlib`'s `hexdigest`: each digest byte rendered as two lowercase hex
characters, high nibble first (an external collaborator, modelled by its
documented behaviour). -/
def hexdigestChars : List Nat → List Char
  | [] => []
  | b :: rest => hexCharLower (b / 16) :: hexCharLower b :: hexdigestChars rest

/-- `hexdigest` as a string. -/
def hexdigest (digestBytes : List Nat) : String :=
  String.mk (hexdigestChars digestBytes)

/-- Minimal-length uppercase hex rendering with explicit fuel (most
significant digit first); fuel 8 covers every value below `2^32`. -/
def natHexChars : Nat → Nat → List Char
  | 0, _ => []
  | fuel + 1, n =>
    if n = 0 then [] else natHexChars fuel (n / 16) ++ [hexCharUpper n]

/-- Python's `f"{v:08X}"` for `v < 2^32`: uppercase hex, zero-padded on the
left to width 8. -/
def formatHex08X (v : Nat) : String :=
  let ds := natHexChars 8 v
  String.mk (List.replicate (8 - ds.length) '0' ++ ds)

/-- `calculate_file_hashes`, parameterized by the outputs of the external
digest accumulators fed with the file's chunks: the MD5 digest (16 bytes),
the SHA1 digest (20 bytes) and the running CRC32 value.  The function
uppercases both hexdigests and formats `crc32 & 0xFFFFFFFF` as `:08X`. -/
def calculate_file_hashes (md5digest sha1digest : List Nat) (crc32val : Nat) :
    String × String × String :=
  (pyUpper (hexdigest md5digest),
   pyUpper (hexdigest sha1digest),
   formatHex08X (crc32val % 4294967296))

/-- Modelled from the spec: the locale-selection rule claimed for localized
text fields — the entry whose locale tag equals the configured locale, else
the first entry, else the empty string. -/
def locale_selection_rule (language : String) (l : List TextEntry) : String :=
  match l.find? (fun e => e.langue == some language) with
  | some e => e.text.getD ""
  | none =>
    match l with
    | [] => ""
    | e :: _ => e.text.getD ""

/-- Modelled from the spec: "take the first entry's text, else empty". -/
def first_text_rule (l : List TextEntry) : String :=
  match l with
  | [] => ""
  | e :: _ => e.text.getD ""

/-- All media items of a `jeu` node in encounter order (groups in order,
items of each group in order), before any filtering. -/
def allMediaItems (jeu : Jeu) : List MediaItem :=
  (jeu.medias.getD []).flatMap (fun g => g.media.getD [])

/-- The record a kept media item is turned into. -/
def mediaItemRecord (it : MediaItem) : GameMedia :=
  { media_type := it.type.getD ""
    url := it.url.getD ""
    format := it.format.getD ""
    region := it.region.getD ""
    size := it.size.getD "" }

/-- C1: for every platform name not present in the closed platform table,
`search_by_file` and `search_by_name` fail with the `InvalidPlatform`
condition and perform no effect at all — in particular neither a network
request nor a file read — before that failure. -/
theorem invalid_platform_rejected_before_effects (st : ClientState)
    (platform : String) (hp : platformId platform = none)
    (hashResult : Except Unit (String × String × String))
    (game_name : String) (req1 req2 : Except SSError ApiData) :
    search_by_file st platform hashResult req1
      = (.error (.invalidPlatform platform), []) ∧
    search_by_name st game_name platform req2
      = (.error (.invalidPlatform platform), []) := by
  constructor <;> simp [search_by_file, search_by_name, hp]

/-- Witness for C1 at the unrecognized platform name `ps3`. -/
theorem invalid_platform_rejected_before_effects_witness :
    platformId "ps3" = none ∧
    search_by_file (init_client "dev" "pw") "ps3" (.ok ("", "", ""))
        (.error .transportFailure)
      = (.error (.invalidPlatform "ps3"), []) ∧
    search_by_name (init_client "dev" "pw") "Mario" "ps3"
        (.error .transportFailure)
      = (.error (.invalidPlatform "ps3"), []) :=
  ⟨rfl, invalid_platform_rejected_before_effects (init_client "dev" "pw") "ps3"
    rfl (.ok ("", "", "")) "Mario" (.error .transportFailure)
    (.error .transportFailure)⟩

/-- C2: when the body fails to parse and the single trailing-comma repair
also fails to parse, `_make_request` fails with the distinct
`MalformedResponse` condition, the parser was handed exactly the original
text and then its one repaired form (no further repair or retry), and the
client state is left untouched apart from the rate-limit timestamp. -/
theorem malformed_response_after_single_repair
    (parse : String → Option ApiData) (st : ClientState) (wake : ℚ)
    (text : String) (h1 : parse text = none)
    (h2 : parse (fixJson text) = none) :
    make_request parse st wake (.body text)
      = (.error .malformedResponse, rate_limit st wake,
         [text, fixJson text]) := by
  simp [make_request, h1, h2]

/-- Witness for C2 with a parser that rejects everything. -/
theorem malformed_response_after_single_repair_witness :
    (fun _ : String => (none : Option ApiData)) "\x7b" = none ∧
    make_request (fun _ => none) (init_client "dev" "pw") 5 (.body "\x7b")
      = (.error .malformedResponse, rate_limit (init_client "dev" "pw") 5,
         ["\x7b", fixJson "\x7b"]) :=
  ⟨rfl, malformed_response_after_single_repair (fun _ => none)
    (init_client "dev" "pw") 5 "\x7b" rfl rfl⟩

/-- Counterexample to C3: with the valid platform `nes` and a file whose
hashing fails, `search_by_file` returns the empty result `none` (after only
the file-read attempt) — the failure is swallowed, not surfaced as a
`FileUnreadable` condition as the claim states. -/
theorem hash_failure_swallowed_counterexample :
    search_by_file (init_client "dev" "pw") "nes" (.error ())
        (.ok ⟨none, none⟩)
      = (.ok none, [.fileHashing]) ∧
    (Except.ok none : Except SSError (Option GameInfo))
      ≠ .error .fileUnreadable :=
  ⟨rfl, fun h => Except.noConfusion h⟩

/-- C3 as amended: for every valid platform, when `calculate_file_hashes`
raises, `search_by_file` catches the exception and returns the empty result
`none` after only the file-read attempt, performing no network request; the
failure is logged but not surfaced to the caller. -/
theorem hash_failure_returns_none (st : ClientState) (platform : String)
    (hp : (platformId platform).isSome = true)
    (reqResult : Except SSError ApiData) :
    search_by_file st platform (.error ()) reqResult
      = (.ok none, [.fileHashing]) := by
  obtain ⟨v, hv⟩ := Option.isSome_iff_exists.mp hp
  simp [search_by_file, hv]

/-- Witness for the amended C3 at platform `nes`. -/
theorem hash_failure_returns_none_witness :
    (platformId "nes").isSome = true ∧
    search_by_file (init_client "dev" "pw") "nes" (.error ())
        (.error .transportFailure)
      = (.ok none, [.fileHashing]) :=
  ⟨rfl, hash_failure_returns_none (init_client "dev" "pw") "nes" rfl
    (.error .transportFailure)⟩

/-- C9: whenever the clock reading taken after the sleep is at least the
pre-sleep reading plus the slept duration, the recorded time of the new
request is at least one configured delay after the recorded time of the
previous request; moreover the sleep is exactly the remainder of the gap
whenever insufficient time has elapsed, and the delay defaults to 1 second.
(Model: each outbound call is timestamped by the `last_request_time` the
rate limiter records for it.) -/
theorem rate_limit_enforces_gap (st : ClientState) (now wake : ℚ)
    (hwake : now + rate_limit_sleep st.request_delay st.last_request_time now
      ≤ wake) :
    st.last_request_time + st.request_delay
      ≤ (rate_limit st wake).last_request_time ∧
    (now - st.last_request_time < st.request_delay →
      rate_limit_sleep st.request_delay st.last_request_time now
        = st.request_delay - (now - st.last_request_time)) ∧
    (∀ a b, (init_client a b).request_delay = 1) := by
  refine ⟨?_, ?_, fun a b => rfl⟩
  · show st.last_request_time + st.request_delay ≤ wake
    unfold rate_limit_sleep at hwake
    split at hwake
    · linarith
    · next hge => linarith [not_lt.mp hge]
  · intro h
    unfold rate_limit_sleep
    rw [if_pos h]

/-- Witness for C9: a fresh client (previous timestamp 0, delay 1), call at
time 0 sleeping to time 1. -/
theorem rate_limit_enforces_gap_witness :
    ((0 : ℚ) + rate_limit_sleep (init_client "d" "p").request_delay
        (init_client "d" "p").last_request_time 0 ≤ 1) ∧
    (init_client "d" "p").last_request_time
        + (init_client "d" "p").request_delay
      ≤ (rate_limit (init_client "d" "p") 1).last_request_time := by
  have h0 : (0 : ℚ) + rate_limit_sleep (init_client "d" "p").request_delay
      (init_client "d" "p").last_request_time 0 ≤ 1 := by
    norm_num [rate_limit_sleep, init_client]
  exact ⟨h0, (rate_limit_enforces_gap (init_client "d" "p") 0 1 h0).1⟩

/-- `checkApiErrors` always increments exactly `request_count` (whatever the
header says) and passes the attempt log through unchanged. -/
theorem checkApiErrors_state (data : ApiData) (st : ClientState)
    (attempts : List String) :
    (checkApiErrors data st attempts).2.1
        = { st with request_count := st.request_count + 1 } ∧
    (checkApiErrors data st attempts).2.2 = attempts := by
  unfold checkApiErrors
  split
  · split_ifs <;> exact ⟨rfl, rfl⟩
  · exact ⟨rfl, rfl⟩

/-- The result component of `checkApiErrors` does not depend on the client
state. -/
theorem checkApiErrors_result (data : ApiData) (st st' : ClientState)
    (attempts : List String) :
    (checkApiErrors data st attempts).1
      = (checkApiErrors data st' attempts).1 := by
  unfold checkApiErrors
  split
  · split_ifs <;> rfl
  · rfl

/-- C10: on every call, `request_count` grows by exactly one iff the body
parsed as JSON (directly or after the one repair) — independently of the
header error that may then fail the call — while a transport failure or a
doubly-unparseable body leaves it unchanged; every configuration field is
preserved, and neither the result, the count, nor the parse-attempt log
depends on `max_requests_per_day` (the count is never checked against it). -/
theorem request_count_frame (parse : String → Option ApiData)
    (st : ClientState) (wake : ℚ) (hr : HttpResult) :
    ((make_request parse st wake hr).2.1.dev_id = st.dev_id ∧
     (make_request parse st wake hr).2.1.dev_password = st.dev_password ∧
     (make_request parse st wake hr).2.1.software_name = st.software_name ∧
     (make_request parse st wake hr).2.1.user_id = st.user_id ∧
     (make_request parse st wake hr).2.1.user_password = st.user_password ∧
     (make_request parse st wake hr).2.1.language = st.language ∧
     (make_request parse st wake hr).2.1.max_requests_per_day
       = st.max_requests_per_day ∧
     (make_request parse st wake hr).2.1.request_delay = st.request_delay) ∧
    ((make_request parse st wake .transportError).2.1.request_count
       = st.request_count) ∧
    (∀ text, hr = .body text → parse text = none →
      parse (fixJson text) = none →
      (make_request parse st wake hr).2.1.request_count
        = st.request_count) ∧
    (∀ text, hr = .body text →
      ((make_request parse st wake hr).2.1.request_count
          = st.request_count + 1 ↔
        ((parse text).isSome = true ∨ (parse (fixJson text)).isSome = true))) ∧
    (∀ m, (make_request parse { st with max_requests_per_day := m } wake hr).1
        = (make_request parse st wake hr).1 ∧
      (make_request parse { st with max_requests_per_day := m } wake hr
          ).2.1.request_count
        = (make_request parse st wake hr).2.1.request_count ∧
      (make_request parse { st with max_requests_per_day := m } wake hr).2.2
        = (make_request parse st wake hr).2.2) := by
  have hstate : ∀ (data : ApiData) (st' : ClientState) (attempts : List String),
      (checkApiErrors data st' attempts).2.1
        = { st' with request_count := st'.request_count + 1 } :=
    fun data st' attempts => (checkApiErrors_state data st' attempts).1
  have hlog : ∀ (data : ApiData) (st' : ClientState) (attempts : List String),
      (checkApiErrors data st' attempts).2.2 = attempts :=
    fun data st' attempts => (checkApiErrors_state data st' attempts).2
  refine ⟨?_, ?_, ?_, ?_, ?_⟩
  · cases hr with
    | transportError => simp [make_request, rate_limit]
    | body text =>
      cases h1 : parse text with
      | some data => simp [make_request, h1, hstate, rate_limit]
      | none =>
        cases h2 : parse (fixJson text) with
        | some data => simp [make_request, h1, h2, hstate, rate_limit]
        | none => simp [make_request, h1, h2, rate_limit]
  · simp [make_request, rate_limit]
  · intro text htext h1 h2
    subst htext
    simp [make_request, h1, h2, rate_limit]
  · intro text htext
    subst htext
    cases h1 : parse text with
    | some data => simp [make_request, h1, hstate, rate_limit]
    | none =>
      cases h2 : parse (fixJson text) with
      | some data => simp [make_request, h1, h2, hstate, rate_limit]
      | none => simp [make_request, h1, h2, rate_limit]
  · intro m
    cases hr with
    | transportError => simp [make_request, rate_limit]
    | body text =>
      cases h1 : parse text with
      | some data =>
        refine ⟨?_, ?_, ?_⟩
        · simp only [make_request, h1]
          exact checkApiErrors_result data _ _ [text]
        · simp [make_request, h1, hstate, rate_limit]
        · simp [make_request, h1, hlog, rate_limit]
      | none =>
        cases h2 : parse (fixJson text) with
        | some data =>
          refine ⟨?_, ?_, ?_⟩
          · simp only [make_request, h1, h2]
            exact checkApiErrors_result data _ _ [text, fixJson text]
          · simp [make_request, h1, h2, hstate, rate_limit]
          · simp [make_request, h1, h2, hlog, rate_limit]
        | none => simp [make_request, h1, h2, rate_limit]

/-- Witness for C10: a body that parses but reports a quota error still
bumps the counter from 0 to 1. -/
theorem request_count_frame_witness :
    HttpResult.body "q" = HttpResult.body "q" ∧
    ((make_request
        (fun _ => some ⟨some ⟨some "quota reached"⟩, none⟩)
        (init_client "dev" "pw") 2 (.body "q")).2.1.request_count
      = (init_client "dev" "pw").request_count + 1 ↔
      (((fun _ : String => some (⟨some ⟨some "quota reached"⟩, none⟩ : ApiData))
          "q").isSome = true ∨
       ((fun _ : String => some (⟨some ⟨some "quota reached"⟩, none⟩ : ApiData))
          (fixJson "q")).isSome = true)) :=
  ⟨rfl, (request_count_frame
    (fun _ => some ⟨some ⟨some "quota reached"⟩, none⟩)
    (init_client "dev" "pw") 2 (.body "q")).2.2.2.1 "q" rfl⟩

/-- The mapper fails exactly on a missing wrapper or missing game node, and
then with `GameNotFoundError`. -/
theorem parse_game_data_missing (language : String) (data : ApiData) :
    ((∃ m, parse_game_data language data = .error (.gameNotFound m)) ↔
      data.response.bind (fun r => r.jeu) = none) ∧
    (∀ e, parse_game_data language data = .error e →
      ∃ m, e = .gameNotFound m) := by
  rcases data with ⟨hdr, resp⟩
  cases resp with
  | none => simp [parse_game_data]
  | some r =>
    rcases r with ⟨j⟩
    cases j with
    | none => simp [parse_game_data]
    | some jeu => simp [parse_game_data]

/-- C4: `_parse_game_data` fails with `NotFound` (`GameNotFoundError`) iff
the parsed response lacks the `response` wrapper or the `jeu` node, and this
is its only failure; in that case all three search operations return the
empty result `none` instead of propagating a failure; and every other
missing field degrades to an empty-string/empty-list default. -/
theorem parse_notfound_characterization :
    (∀ language data,
      (∃ m, parse_game_data language data = .error (.gameNotFound m)) ↔
        data.response.bind (fun r => r.jeu) = none) ∧
    (∀ language data e, parse_game_data language data = .error e →
      ∃ m, e = .gameNotFound m) ∧
    (∀ (st : ClientState) (data : ApiData),
      data.response.bind (fun r => r.jeu) = none →
      search_by_id st (.ok data) = (.ok none, [.netRequest]) ∧
      (∀ game_name platform, (platformId platform).isSome = true →
        search_by_name st game_name platform (.ok data)
          = (.ok none, [.netRequest])) ∧
      (∀ platform fp, (platformId platform).isSome = true →
        search_by_file st platform (.ok fp) (.ok data)
          = (.ok none, [.fileHashing, .netRequest]))) ∧
    (∀ language hdr jeu, ∃ gi,
      parse_game_data language ⟨hdr, some ⟨some jeu⟩⟩ = .ok gi ∧
      (jeu.id = none → gi.id = "") ∧
      (jeu.noms = none → gi.name = "") ∧
      (jeu.synopsis = none → gi.description = "") ∧
      (jeu.editeur = none → gi.publisher = "") ∧
      (jeu.developpeur = none → gi.developer = "") ∧
      (jeu.joueurs = none → gi.players = "") ∧
      (jeu.note = none → gi.rating = "") ∧
      (jeu.dates = none → gi.release_date = "") ∧
      (jeu.genres = none → gi.genre = "") ∧
      (jeu.systeme = none → gi.system = "") ∧
      (jeu.medias = none → gi.media = [])) := by
  refine ⟨fun language data => (parse_game_data_missing language data).1,
    fun language data => (parse_game_data_missing language data).2,
    ?_, ?_⟩
  · intro st data hmiss
    obtain ⟨m, hm⟩ := (parse_game_data_missing st.language data).1.mpr hmiss
    refine ⟨?_, ?_, ?_⟩
    · simp [search_by_id, searchRequest, hm]
    · intro game_name platform hp
      obtain ⟨v, hv⟩ := Option.isSome_iff_exists.mp hp
      simp [search_by_name, searchRequest, hm, hv]
    · intro platform fp hp
      obtain ⟨v, hv⟩ := Option.isSome_iff_exists.mp hp
      simp [search_by_file, searchRequest, hm, hv]
  · intro language hdr jeu
    refine ⟨_, rfl, ?_, ?_, ?_, ?_, ?_, ?_, ?_, ?_, ?_, ?_, ?_⟩ <;>
      intro h <;>
      simp [h, get_localized_text, get_text_from_list, get_release_date,
        parseMedias]

/-- Witness for C4: the empty response tree maps to `NotFound` and
`search_by_id` downgrades it to an empty result. -/
theorem parse_notfound_characterization_witness :
    (∃ m, parse_game_data "en" ⟨none, none⟩ = .error (.gameNotFound m)) ∧
    search_by_id (init_client "d" "p") (.ok ⟨none, none⟩)
      = (.ok none, [.netRequest]) :=
  ⟨(parse_notfound_characterization.1 "en" ⟨none, none⟩).mpr rfl,
   ((parse_notfound_characterization.2.2.1 (init_client "d" "p")
      ⟨none, none⟩) rfl).1⟩

/-- A game node whose `genres` list has a French entry first and an English
entry second. -/
def genreExampleJeu : Jeu :=
  { emptyJeu with
    genres := some [⟨some "fr", some "Action"⟩, ⟨some "en", some "Platform"⟩] }

/-- Counterexample to C5: with configured locale `en` and genre entries
`[(fr, "Action"), (en, "Platform")]`, the claimed locale-selection rule
picks `"Platform"`, but the mapper sets the genre to `"Action"`: genre
(like publisher and developer) always takes the first entry's text, without
consulting the locale. -/
theorem genre_ignores_locale_counterexample :
    Except.map (fun gi => gi.genre)
        (parse_game_data "en" ⟨none, some ⟨some genreExampleJeu⟩⟩)
      = .ok "Action" ∧
    locale_selection_rule "en" (genreExampleJeu.genres.getD []) = "Platform" ∧
    ("Action" : String) ≠ "Platform" := by
  refine ⟨rfl, rfl, ?_⟩
  decide

/-- C5 as amended: `name` and `description` are selected by the locale rule
(entry matching the configured locale, else the first entry, else the empty
string), while `publisher`, `developer` and `genre` always take the first
entry's text, else the empty string. -/
theorem localized_field_selection :
    (∀ language l, get_localized_text language l
      = locale_selection_rule language l) ∧
    (∀ l, get_text_from_list l = first_text_rule l) ∧
    (∀ language hdr jeu, ∃ gi,
      parse_game_data language ⟨hdr, some ⟨some jeu⟩⟩ = .ok gi ∧
      gi.name = locale_selection_rule language (jeu.noms.getD []) ∧
      gi.description = locale_selection_rule language (jeu.synopsis.getD []) ∧
      gi.publisher = first_text_rule (jeu.editeur.getD []) ∧
      gi.developer = first_text_rule (jeu.developpeur.getD []) ∧
      gi.genre = first_text_rule (jeu.genres.getD [])) := by
  have hloc : ∀ language l, get_localized_text language l
      = locale_selection_rule language l := by
    intro language l
    cases l with
    | nil => rfl
    | cons a t =>
      cases h : (a :: t).find? (fun e => e.langue == some language) with
      | some e => simp [get_localized_text, locale_selection_rule, h]
      | none => simp [get_localized_text, locale_selection_rule, h]
  have htext : ∀ l, get_text_from_list l = first_text_rule l := by
    intro l
    cases l <;> rfl
  refine ⟨hloc, htext, fun language hdr jeu => ⟨_, rfl, ?_, ?_, ?_, ?_, ?_⟩⟩
  · exact hloc language (jeu.noms.getD [])
  · exact hloc language (jeu.synopsis.getD [])
  · exact htext (jeu.editeur.getD [])
  · exact htext (jeu.developpeur.getD [])
  · exact htext (jeu.genres.getD [])

/-- Witness for the amended C5 at the spec's own locale example. -/
theorem localized_field_selection_witness :
    get_localized_text "en" [⟨some "fr", some "Bonjour"⟩,
        ⟨some "en", some "Hello"⟩]
      = locale_selection_rule "en" [⟨some "fr", some "Bonjour"⟩,
        ⟨some "en", some "Hello"⟩] ∧
    get_localized_text "en" [⟨some "fr", some "Bonjour"⟩,
        ⟨some "en", some "Hello"⟩] = "Hello" :=
  ⟨localized_field_selection.1 "en" [⟨some "fr", some "Bonjour"⟩,
    ⟨some "en", some "Hello"⟩], rfl⟩

/-- `find?` returns the first satisfying element: the list splits at the hit
with an all-failing prefix. -/
theorem find?_some_split {α : Type} {p : α → Bool} {l : List α} {a : α}
    (h : l.find? p = some a) :
    p a = true ∧ ∃ l1 l2, l = l1 ++ a :: l2 ∧ ∀ x ∈ l1, p x = false := by
  induction l with
  | nil => simp [List.find?] at h
  | cons b t ih =>
    cases hb : p b with
    | true =>
      rw [List.find?_cons_of_pos _ hb] at h
      cases h
      exact ⟨hb, [], t, rfl, by simp⟩
    | false =>
      rw [List.find?_cons_of_neg _ (by simp [hb])] at h
      obtain ⟨hp, l1, l2, rfl, hall⟩ := ih h
      exact ⟨hp, b :: l1, l2, rfl, by
        intro x hx
        rcases List.mem_cons.mp hx with rfl | hx
        · exact hb
        · exact hall x hx⟩

/-- The preference loop finds nothing iff no candidate's region matches any
preferred region (case-insensitively). -/
theorem regionScan_eq_none_iff (prefs : List String)
    (cands : List GameMedia) :
    regionScan prefs cands = none ↔
      ∀ r ∈ prefs, ∀ m ∈ cands, (pyLower m.region == pyLower r) = false := by
  induction prefs with
  | nil => simp [regionScan]
  | cons r rest ih =>
    cases h : cands.find? (fun m => pyLower m.region == pyLower r) with
    | some m =>
      have hp := List.find?_some h
      have hm := List.mem_of_find?_eq_some h
      simp only [regionScan, h]
      constructor
      · intro hc; cases hc
      · intro hall
        exact absurd hp (by simp [hall r (List.mem_cons_self r rest) m hm])
    | none =>
      have hnone : ∀ m ∈ cands, (pyLower m.region == pyLower r) = false := by
        intro m hm
        have := List.find?_eq_none.mp h m hm
        simpa using this
      simp only [regionScan, h, ih, List.forall_mem_cons]
      constructor
      · intro hrest; exact ⟨hnone, hrest⟩
      · intro hboth; exact hboth.2

/-- When the preference loop returns a hit, the preference list splits at a
region `r` none of whose predecessors matches any candidate, and the
candidate list splits at the returned item, the first one matching `r`. -/
theorem regionScan_eq_some (prefs : List String) (cands : List GameMedia)
    (m : GameMedia) (h : regionScan prefs cands = some m) :
    ∃ p1 r p2, prefs = p1 ++ r :: p2 ∧
      (∀ r' ∈ p1, ∀ c ∈ cands, (pyLower c.region == pyLower r') = false) ∧
      (pyLower m.region == pyLower r) = true ∧
      ∃ c1 c2, cands = c1 ++ m :: c2 ∧
        ∀ c ∈ c1, (pyLower c.region == pyLower r) = false := by
  induction prefs with
  | nil => simp [regionScan] at h
  | cons r rest ih =>
    cases hf : cands.find? (fun c => pyLower c.region == pyLower r) with
    | some m' =>
      rw [regionScan, hf] at h
      cases h
      obtain ⟨hp, c1, c2, hsplit, hpre⟩ := find?_some_split hf
      exact ⟨[], r, rest, rfl, by simp, hp, c1, c2, hsplit, hpre⟩
    | none =>
      rw [regionScan, hf] at h
      obtain ⟨p1, r', p2, hps, hall, hp, c1, c2, hcs, hpre⟩ := ih h
      have hnone : ∀ c ∈ cands, (pyLower c.region == pyLower r) = false := by
        intro c hc
        have := List.find?_eq_none.mp hf c hc
        simpa using this
      refine ⟨r :: p1, r', p2, by simp [hps], ?_, hp, c1, c2, hcs, hpre⟩
      intro r'' hr'' c hc
      rcases List.mem_cons.mp hr'' with rfl | hr''
      · exact hnone c hc
      · exact hall r'' hr'' c hc

/-- C6: `get_best_media` filters to the requested kind and returns `none`
exactly when no candidate survives; a returned item is a candidate and is
either the first case-insensitive region hit for the earliest preferred
region that has a hit at all, or — when no preference matches any
candidate — the first candidate in encounter order. -/
theorem get_best_media_characterization (gi : GameInfo)
    (media_type : String) (preferred_regions : Option (List String)) :
    (gi.get_best_media media_type preferred_regions = none ↔
      gi.get_media_by_type media_type = []) ∧
    (∀ m, gi.get_best_media media_type preferred_regions = some m →
      m ∈ gi.get_media_by_type media_type ∧
      ((∃ p1 r p2,
          preferred_regions.getD ["us", "wor", "eu", "jp"] = p1 ++ r :: p2 ∧
          (∀ r' ∈ p1, ∀ c ∈ gi.get_media_by_type media_type,
            (pyLower c.region == pyLower r') = false) ∧
          (pyLower m.region == pyLower r) = true ∧
          ∃ c1 c2, gi.get_media_by_type media_type = c1 ++ m :: c2 ∧
            ∀ c ∈ c1, (pyLower c.region == pyLower r) = false) ∨
       ((∀ r ∈ preferred_regions.getD ["us", "wor", "eu", "jp"],
           ∀ c ∈ gi.get_media_by_type media_type,
           (pyLower c.region == pyLower r) = false) ∧
        (gi.get_media_by_type media_type).head? = some m))) := by
  cases hc : gi.get_media_by_type media_type with
  | nil =>
    constructor
    · simp [GameInfo.get_best_media, hc]
    · intro m hm
      rw [GameInfo.get_best_media] at hm
      simp only [hc] at hm
      cases hm
  | cons first rest =>
    constructor
    · rw [GameInfo.get_best_media]
      simp only [hc]
      cases regionScan (preferred_regions.getD ["us", "wor", "eu", "jp"])
          (first :: rest) <;> simp
    · intro m hm
      rw [GameInfo.get_best_media] at hm
      simp only [hc] at hm
      cases hscan : regionScan (preferred_regions.getD ["us", "wor", "eu", "jp"])
          (first :: rest) with
      | some m' =>
        rw [hscan] at hm
        cases hm
        obtain ⟨p1, r, p2, hps, hall, hp, c1, c2, hcs, hpre⟩ :=
          regionScan_eq_some _ _ _ hscan
        refine ⟨?_, .inl ⟨p1, r, p2, hps, hall, hp, c1, c2, hcs, hpre⟩⟩
        rw [hcs]
        exact List.mem_append.mpr (.inr (List.mem_cons_self _ _))
      | none =>
        rw [hscan] at hm
        cases hm
        exact ⟨List.mem_cons_self _ _,
          .inr ⟨(regionScan_eq_none_iff _ _).mp hscan, rfl⟩⟩

/-- The two media candidates of the spec's best-media example. -/
def mediaJp : GameMedia := ⟨"box-2D", "url-jp", "png", "jp", ""⟩

/-- The `eu` candidate the spec's example expects to win. -/
def mediaEu : GameMedia := ⟨"box-2D", "url-eu", "png", "eu", ""⟩

/-- A record holding the spec's best-media example candidates. -/
def bestMediaExampleInfo : GameInfo :=
  { id := "1", name := "Example", description := "", publisher := ""
    developer := "", players := "", rating := "", release_date := ""
    genre := "", system := "", media := [mediaJp, mediaEu]
    raw_data := emptyJeu }

/-- Witness for C6 at the spec's example: kind `box-2D`, regions
`[jp, eu]`, default preferences — the `eu` candidate wins and is among the
candidates of that kind. -/
theorem get_best_media_characterization_witness :
    bestMediaExampleInfo.get_best_media "box-2D" none = some mediaEu ∧
    mediaEu ∈ bestMediaExampleInfo.get_media_by_type "box-2D" :=
  ⟨rfl, ((get_best_media_characterization bestMediaExampleInfo "box-2D"
    none).2 mediaEu rfl).1⟩

/-- Keeping an item iff its url is non-empty is the same as filtering on a
non-empty url and then building the record. -/
theorem filterMap_parseMediaItem (l : List MediaItem) :
    l.filterMap parseMediaItem
      = (l.filter (fun it => it.url.getD "" != "")).map mediaItemRecord := by
  induction l with
  | nil => rfl
  | cons it t ih =>
    by_cases h : it.url.getD "" = ""
    · simp [List.filterMap_cons, List.filter_cons, parseMediaItem, h, ih]
    · simp [List.filterMap_cons, List.filter_cons, parseMediaItem, h, ih,
        mediaItemRecord]

/-- The nested media loop equals: flatten all groups in encounter order,
keep the items with a non-empty url, build their records. -/
theorem parseMedias_eq_filter (medias : List MediaGroup) :
    parseMedias medias
      = ((medias.flatMap (fun g => g.media.getD [])).filter
          (fun it => it.url.getD "" != "")).map mediaItemRecord := by
  induction medias with
  | nil => rfl
  | cons g t ih =>
    simp [parseMedias, List.flatMap_cons, List.filter_append,
      List.map_append, ih, filterMap_parseMediaItem]

/-- C7: every record the mapper produces has a media list without any
empty-url entry, and that list is exactly the items of all media groups in
encounter order, restricted to those with a url. -/
theorem media_urls_nonempty (language : String) (data : ApiData)
    (gi : GameInfo) (h : parse_game_data language data = .ok gi) :
    (∀ m ∈ gi.media, m.url ≠ "") ∧
    ∃ jeu, data.response.bind (fun r => r.jeu) = some jeu ∧
      gi.media = ((allMediaItems jeu).filter
          (fun it => it.url.getD "" != "")).map mediaItemRecord := by
  rcases data with ⟨hdr, resp⟩
  cases resp with
  | none => simp [parse_game_data] at h
  | some r =>
    rcases r with ⟨j⟩
    cases j with
    | none => simp [parse_game_data] at h
    | some jeu =>
      rw [parse_game_data] at h
      cases h
      have hmedia : parseMedias (jeu.medias.getD [])
          = ((allMediaItems jeu).filter
              (fun it => it.url.getD "" != "")).map mediaItemRecord := by
        rw [parseMedias_eq_filter, allMediaItems]
      refine ⟨?_, jeu, rfl, hmedia⟩
      intro m hm
      rw [hmedia] at hm
      obtain ⟨it, hit, rfl⟩ := List.mem_map.mp hm
      have hurl : (it.url.getD "" != "") = true :=
        (List.mem_filter.mp hit).2
      have : it.url.getD "" ≠ "" := by simpa using hurl
      simpa [mediaItemRecord] using this

/-- The spec's empty-url example: one media group holding one `box-2D` item
whose url is the empty string. -/
def emptyUrlJeu : Jeu :=
  { emptyJeu with
    medias := some [⟨some [⟨some "box-2D", some "", none, none, none⟩]⟩] }

/-- The record the mapper produces for `emptyUrlJeu`: all defaults and zero
media entries. -/
def emptyUrlRecord : GameInfo :=
  { id := "", name := "", description := "", publisher := "", developer := ""
    players := "", rating := "", release_date := "", genre := "", system := ""
    media := [], raw_data := emptyUrlJeu }

/-- Witness for C7 at the spec's example: the empty-url candidate is
excluded entirely, so the parsed record has zero media entries. -/
theorem media_urls_nonempty_witness :
    parse_game_data "en" ⟨none, some ⟨some emptyUrlJeu⟩⟩
      = .ok emptyUrlRecord ∧
    (∀ m ∈ emptyUrlRecord.media, m.url ≠ "") ∧
    emptyUrlRecord.media = [] :=
  ⟨rfl, (media_urls_nonempty "en" ⟨none, some ⟨some emptyUrlJeu⟩⟩
    emptyUrlRecord rfl).1, rfl⟩

/-- Test for the sixteen uppercase hexadecimal digit characters. -/
def isUpperHexChar (c : Char) : Bool :=
  ['0', '1', '2', '3', '4', '5', '6', '7', '8', '9',
   'A', 'B', 'C', 'D', 'E', 'F'].contains c

/-- Uppercasing any lowercase hex digit gives an uppercase hex digit. -/
theorem hexCharLower_toUpper_mem (n : Nat) :
    isUpperHexChar (hexCharLower n).toUpper = true := by
  have key : ∀ m, m < 16 → isUpperHexChar (hexTableLower m).toUpper = true := by
    decide
  exact key (n % 16) (Nat.mod_lt _ (by norm_num))

/-- Every digit the uppercase table yields is an uppercase hex digit. -/
theorem hexCharUpper_mem (n : Nat) : isUpperHexChar (hexCharUpper n) = true := by
  have key : ∀ m, m < 16 → isUpperHexChar (hexTableUpper m) = true := by
    decide
  exact key (n % 16) (Nat.mod_lt _ (by norm_num))

/-- A hexdigest renders two characters per digest byte. -/
theorem hexdigestChars_length (l : List Nat) :
    (hexdigestChars l).length = 2 * l.length := by
  induction l with
  | nil => rfl
  | cons b t ih => simp [hexdigestChars, ih]; omega

/-- Every character of an uppercased hexdigest is an uppercase hex digit. -/
theorem hexdigestChars_toUpper_all (l : List Nat) :
    ((hexdigestChars l).map Char.toUpper).all isUpperHexChar = true := by
  induction l with
  | nil => rfl
  | cons b t ih =>
    simp only [hexdigestChars, List.map_cons, List.all_cons, ih,
      hexCharLower_toUpper_mem, Bool.and_self]

/-- The fuelled hex rendering emits at most `fuel` digits. -/
theorem natHexChars_length_le (fuel : Nat) : ∀ n,
    (natHexChars fuel n).length ≤ fuel := by
  induction fuel with
  | zero => intro n; simp [natHexChars]
  | succ f ih =>
    intro n
    rw [natHexChars]
    split
    · simp
    · simp only [List.length_append, List.length_cons, List.length_nil]
      have := ih (n / 16)
      omega

/-- Every digit the fuelled hex rendering emits is an uppercase hex digit. -/
theorem natHexChars_all (fuel : Nat) : ∀ n,
    (natHexChars fuel n).all isUpperHexChar = true := by
  induction fuel with
  | zero => intro n; rfl
  | succ f ih =>
    intro n
    rw [natHexChars]
    split
    · rfl
    · rw [List.all_append]
      simp [ih (n / 16), hexCharUpper_mem n]

/-- The characters of `formatHex08X` are eight uppercase hex digits. -/
theorem formatHex08X_format (v : Nat) :
    (formatHex08X v).length = 8 ∧
    (formatHex08X v).data.all isUpperHexChar = true := by
  have hle := natHexChars_length_le 8 v
  constructor
  · show (List.replicate (8 - (natHexChars 8 v).length) '0'
      ++ natHexChars 8 v).length = 8
    simp only [List.length_append, List.length_replicate]
    omega
  · show (List.replicate (8 - (natHexChars 8 v).length) '0'
      ++ natHexChars 8 v).all isUpperHexChar = true
    rw [List.all_append]
    simp [List.all_replicate, natHexChars_all 8 v, isUpperHexChar]

/-- C8: for digest inputs of the standard widths (16 MD5 bytes, 20 SHA1
bytes, any CRC32 accumulator value), `calculate_file_hashes` returns three
strings of exact lengths 32, 40 and 8, each consisting only of uppercase
hexadecimal digits. -/
theorem calculate_file_hashes_format (md5digest sha1digest : List Nat)
    (crc32val : Nat) (h1 : md5digest.length = 16)
    (h2 : sha1digest.length = 20) :
    ((calculate_file_hashes md5digest sha1digest crc32val).1.length = 32 ∧
      (calculate_file_hashes md5digest sha1digest crc32val).1.data.all
        isUpperHexChar = true) ∧
    ((calculate_file_hashes md5digest sha1digest crc32val).2.1.length = 40 ∧
      (calculate_file_hashes md5digest sha1digest crc32val).2.1.data.all
        isUpperHexChar = true) ∧
    ((calculate_file_hashes md5digest sha1digest crc32val).2.2.length = 8 ∧
      (calculate_file_hashes md5digest sha1digest crc32val).2.2.data.all
        isUpperHexChar = true) := by
  refine ⟨⟨?_, ?_⟩, ⟨?_, ?_⟩, formatHex08X_format (crc32val % 4294967296)⟩
  · show ((hexdigestChars md5digest).map Char.toUpper).length = 32
    rw [List.length_map, hexdigestChars_length, h1]
  · exact hexdigestChars_toUpper_all md5digest
  · show ((hexdigestChars sha1digest).map Char.toUpper).length = 40
    rw [List.length_map, hexdigestChars_length, h2]
  · exact hexdigestChars_toUpper_all sha1digest

/-- Witness for C8 at concrete digest values. -/
theorem calculate_file_hashes_format_witness :
    (List.replicate 16 (171 : Nat)).length = 16 ∧
    (List.replicate 20 (0 : Nat)).length = 20 ∧
    ((calculate_file_hashes (List.replicate 16 171) (List.replicate 20 0)
        3000000000).2.2.length = 8 ∧
      (calculate_file_hashes (List.replicate 16 171) (List.replicate 20 0)
        3000000000).2.2.data.all isUpperHexChar = true) :=
  ⟨rfl, rfl, (calculate_file_hashes_format (List.replicate 16 171)
    (List.replicate 20 0) 3000000000 rfl rfl).2.2⟩

end ScreenScraper
